import Mathlib

/-!
# Shallow embedding of the cashone backend core

This file embeds the transaction ledger, the category hierarchy engine and
the Monobank synchronization engine of the cashone repository, and proves
the behavioural claims about them.

Modelling conventions:
* UUIDs are modelled as `Nat` (0 plays the role of `uuid.Nil`), Go `int64`
  money amounts as `Int` (the verified properties are about ledger
  arithmetic, not 64-bit overflow), timestamps as `Int` unix seconds.
* The database is an explicit `DB` state value.  A gorm database
  transaction (`db.Transaction(func(tx) ...)`) commits all-or-nothing, so a
  repository operation is a function `DB → Except Err DB`: an `Except.error`
  result is a rolled-back unit and the caller keeps the previous state.
  The `apply…` wrappers expose the resulting observable state.
* Outbound HTTP (the Monobank API) and ambient time are external
  collaborators and are passed in as explicit parameters (`fetch`, `now`).
-/

/-- A card row (`entity.Card`). -/
structure Card where
  id : Nat
  userID : Nat
  cardName : String
  maskedPan : String
  balance : Int
  creditLimit : Int
  currencyCode : Nat
  isManual : Bool
  cardType : String
  monobankAccountID : String
  deriving Repr, DecidableEq

/-- A transaction row (`entity.Transaction`).  The Go field `Type` is named
`ttype` here, `MonobankID` is the external id (empty string = manual). -/
structure Transaction where
  id : Nat
  cardID : Nat
  userID : Nat
  categoryID : Option Nat
  amount : Int
  operationAmount : Int
  currencyCode : Nat
  operationCurrencyCode : Nat
  ttype : String
  description : String
  mcc : Nat
  commissionRate : Int
  cashbackAmount : Int
  balanceAfter : Int
  hold : Bool
  transactionDate : Int
  monobankID : String
  comment : String
  deriving Repr, DecidableEq

/-- A category row (`entity.Category`).  The Go field `Type` is `ctype`. -/
structure Category where
  id : Nat
  name : String
  parentID : Option Nat
  userID : Nat
  ctype : String
  deriving Repr, DecidableEq

/-- A Monobank integration row (`entity.MonobankIntegration`). -/
structure MonobankIntegration where
  id : Nat
  userID : Nat
  clientID : String
  token : String
  webhookURL : String
  permissions : String
  deriving Repr, DecidableEq

/-- The persistent state: the relevant tables.  Users are consulted only
for existence, so the table is the list of user ids. -/
structure DB where
  users : List Nat
  cards : List Card
  transactions : List Transaction
  categories : List Category
  integrations : List MonobankIntegration
  deriving Repr, DecidableEq

/-- The enumerable error kinds returned by the embedded services
(`domain/errors` plus the service-local error values). -/
inductive Err where
  | cardNotFound
  | unauthorized
  | transactionNotFound
  | invalidTransaction
  | insufficientFunds
  | categoryNotFound
  | categoryTypeMismatch
  | cannotModifyMonobank
  | recordNotFound
  | userNotFound
  | categoryAlreadyExists
  | invalidCategoryData
  | circularReference
  | parentDifferentUser
  | databaseOperation
  | integrationNotFound
  | rateLimit
  | tokenInvalid
  | apiError
  | invalidRequest
  deriving Repr, DecidableEq

/-- `cardRepo.GetByID` (gorm `First` by primary key). -/
def findCard (cards : List Card) (id : Nat) : Option Card :=
  cards.find? (fun c => c.id == id)

/-- `transactionRepo.GetByID`. -/
def findTransaction (txs : List Transaction) (id : Nat) : Option Transaction :=
  txs.find? (fun t => t.id == id)

/-- `categoryRepo.GetByID`. -/
def findCategory (cats : List Category) (id : Nat) : Option Category :=
  cats.find? (fun c => c.id == id)

/-- `monoRepo.GetByUserID` (the user id column is unique). -/
def findIntegration (integs : List MonobankIntegration) (userID : Nat) :
    Option MonobankIntegration :=
  integs.find? (fun i => i.userID == userID)

/-- gorm `Save` of a loaded card: replaces the row with the same primary key. -/
def saveCard (cards : List Card) (c : Card) : List Card :=
  cards.map (fun old => if old.id = c.id then c else old)

/-- `transactionService.validateTransaction`:
amount positive, type one of the three enumerated values, currency matches
the card, description non-empty. -/
def validateTransaction (t : Transaction) (card : Card) : Except Err Unit :=
  if t.amount ≤ 0 then .error .invalidTransaction
  else if ¬(t.ttype = "expense" ∨ t.ttype = "income" ∨ t.ttype = "transfer") then
    .error .invalidTransaction
  else if t.currencyCode ≠ card.currencyCode then .error .invalidTransaction
  else if t.description = "" then .error .invalidTransaction
  else .ok ()

/-- The category verification block shared verbatim by `CreateTransaction`
and `UpdateTransaction` (lines 59–74 and 195–210 of the service): the
category, when given, must exist, belong to the caller, and have the
transaction's type. -/
def checkTransactionCategory (db : DB) (userID : Nat) (t : Transaction) :
    Except Err Unit :=
  match t.categoryID with
  | none => .ok ()
  | some cid =>
    match findCategory db.categories cid with
    | none => .error .categoryNotFound
    | some category =>
      if category.userID ≠ userID then .error .unauthorized
      else if category.ctype ≠ t.ttype then .error .categoryTypeMismatch
      else .ok ()

/-- `transactionRepository.Create` (app tree): inside one gorm transaction,
insert the row, reload the card, apply the per-type balance change, save
the card.  An error rolls the whole unit back. -/
def transactionRepoCreate (db : DB) (t : Transaction) : Except Err DB :=
  let db1 : DB := { db with transactions := db.transactions ++ [t] }
  match findCard db1.cards t.cardID with
  | none => .error .recordNotFound
  | some card =>
    let newCard :=
      if t.ttype = "income" then { card with balance := card.balance + t.amount }
      else if t.ttype = "expense" then { card with balance := card.balance - t.amount }
      else if t.ttype = "transfer" then { card with balance := card.balance - t.amount }
      else card
    .ok { db1 with cards := saveCard db1.cards newCard }

/-- `transactionRepository.Update`: updates the listed columns of the row
with the transaction's id; `card_id`, `user_id` and `monobank_id` are not
among the updated columns.  Zero rows affected is `ErrRecordNotFound`. -/
def transactionRepoUpdate (db : DB) (t : Transaction) : Except Err DB :=
  if db.transactions.any (fun old => old.id == t.id) then
    .ok { db with transactions := db.transactions.map (fun old =>
      if old.id = t.id then
        { old with
            categoryID := t.categoryID
            amount := t.amount
            operationAmount := t.operationAmount
            currencyCode := t.currencyCode
            operationCurrencyCode := t.operationCurrencyCode
            ttype := t.ttype
            description := t.description
            mcc := t.mcc
            commissionRate := t.commissionRate
            cashbackAmount := t.cashbackAmount
            balanceAfter := t.balanceAfter
            hold := t.hold
            transactionDate := t.transactionDate
            comment := t.comment }
      else old) }
  else .error .recordNotFound

/-- `transactionRepository.Delete`: removes the row; zero rows affected is
`ErrRecordNotFound`. -/
def transactionRepoDelete (db : DB) (id : Nat) : Except Err DB :=
  if db.transactions.any (fun t => t.id == id) then
    .ok { db with transactions := db.transactions.filter (fun t => t.id != id) }
  else .error .recordNotFound

/-- `transactionService.CreateTransaction`.  `now` stands for `time.Now()`
(used only to default a zero transaction date). -/
def CreateTransaction (now : Int) (db : DB) (userID : Nat) (t : Transaction) :
    Except Err DB :=
  match findCard db.cards t.cardID with
  | none => .error .cardNotFound
  | some card =>
    if card.userID ≠ userID then .error .unauthorized
    else match checkTransactionCategory db userID t with
    | .error e => .error e
    | .ok _ =>
      match validateTransaction t card with
      | .error e => .error e
      | .ok _ =>
        let t1 := { t with
            userID := userID
            transactionDate := if t.transactionDate = 0 then now else t.transactionDate }
        let newBalance :=
          if t1.ttype = "expense" then card.balance - t1.amount
          else if t1.ttype = "income" then card.balance + t1.amount
          else if t1.ttype = "transfer" then card.balance - t1.amount
          else card.balance
        if newBalance < -card.creditLimit then .error .insufficientFunds
        else transactionRepoCreate db { t1 with balanceAfter := newBalance }

/-- `transactionService.UpdateTransaction`: reload, check ownership, refuse
externally-sourced rows, re-validate, preserve `userID`/`cardID`, clear the
external id, update. -/
def UpdateTransaction (db : DB) (userID : Nat) (t : Transaction) : Except Err DB :=
  match findTransaction db.transactions t.id with
  | none => .error .transactionNotFound
  | some existingTx =>
    if existingTx.userID ≠ userID then .error .unauthorized
    else if existingTx.monobankID ≠ "" then .error .cannotModifyMonobank
    else match findCard db.cards existingTx.cardID with
    | none => .error .cardNotFound
    | some card =>
      match checkTransactionCategory db userID t with
      | .error e => .error e
      | .ok _ =>
        match validateTransaction t card with
        | .error e => .error e
        | .ok _ =>
          transactionRepoUpdate db { t with
              userID := existingTx.userID
              cardID := existingTx.cardID
              monobankID := "" }

/-- `transactionService.DeleteTransaction`: reload, check ownership, refuse
externally-sourced rows, delete. -/
def DeleteTransaction (db : DB) (userID : Nat) (transactionID : Nat) :
    Except Err DB :=
  match findTransaction db.transactions transactionID with
  | none => .error .transactionNotFound
  | some t =>
    if t.userID ≠ userID then .error .unauthorized
    else if t.monobankID ≠ "" then .error .cannotModifyMonobank
    else transactionRepoDelete db transactionID

/-- Observable post-state of a create call: on error the transactional unit
rolled back and the state is unchanged. -/
def applyCreateTransaction (now : Int) (db : DB) (userID : Nat) (t : Transaction) : DB :=
  match CreateTransaction now db userID t with
  | .ok db' => db'
  | .error _ => db

/-- Observable post-state of an update call. -/
def applyUpdateTransaction (db : DB) (userID : Nat) (t : Transaction) : DB :=
  match UpdateTransaction db userID t with
  | .ok db' => db'
  | .error _ => db

/-- Observable post-state of a delete call. -/
def applyDeleteTransaction (db : DB) (userID : Nat) (transactionID : Nat) : DB :=
  match DeleteTransaction db userID transactionID with
  | .ok db' => db'
  | .error _ => db

/-- The signed delta of a transaction as the specification words it
(§4.2 step 4): `income → +amount`, `expense → -amount`, `transfer → -amount`. -/
def signedDelta (ttype : String) (amount : Int) : Int :=
  if ttype = "income" then amount
  else if ttype = "expense" then -amount
  else if ttype = "transfer" then -amount
  else 0

/-- A Monobank statement item as decoded by the service
(`monobankTransaction`); identical shape in polling responses and webhook
payloads. -/
structure MonoTx where
  id : String
  time : Int
  description : String
  mcc : Nat
  hold : Bool
  amount : Int
  operationAmount : Int
  currencyCode : Nat
  commissionRate : Int
  cashbackAmount : Int
  balance : Int
  comment : String
  deriving Repr, DecidableEq

/-- The service's `abs` helper. -/
def monoAbs (n : Int) : Int :=
  if n < 0 then -n else n

/-- `transactionRepo.GetByMonobankID`. -/
def findTransactionByMonobankID (txs : List Transaction) (monobankID : String) :
    Option Transaction :=
  txs.find? (fun t => t.monobankID == monobankID)

/-- `cardRepo.GetByMonobankAccountID`: first non-manual card with the given
external account id. -/
def findCardByMonobankAccountID (cards : List Card) (accountID : String) :
    Option Card :=
  cards.find? (fun c => c.monobankAccountID == accountID && !c.isManual)

/-- Insert into a list sorted by `transactionDate` descending. -/
def insertByDateDesc (t : Transaction) : List Transaction → List Transaction
  | [] => [t]
  | u :: us =>
    if t.transactionDate ≤ u.transactionDate then u :: insertByDateDesc t us
    else t :: u :: us

/-- Sort by `transactionDate` descending (the repository's `ORDER BY
transaction_date DESC`). -/
def sortByDateDesc : List Transaction → List Transaction
  | [] => []
  | t :: ts => insertByDateDesc t (sortByDateDesc ts)

/-- `transactionRepo.GetByCardID`: the card's transactions, newest first,
with offset and limit applied when positive. -/
def transactionRepoGetByCardID (txs : List Transaction) (cardID : Nat)
    (limit offset : Nat) : List Transaction :=
  let base := sortByDateDesc (txs.filter (fun t => t.cardID == cardID))
  let base := if offset > 0 then base.drop offset else base
  if limit > 0 then base.take limit else base

/-- `MonobankService.convertMonobankTransaction`: derived type (`income`
when the signed provider amount is positive, `expense` otherwise), absolute
amounts, and the provider's own running `balance` stored as `balanceAfter`.
Row ids are database-generated and irrelevant here (modelled as 0). -/
def convertMonobankTransaction (monoTx : MonoTx) (card : Card) : Transaction :=
  let txType := if monoTx.amount > 0 then "income" else "expense"
  { id := 0
    cardID := card.id
    userID := card.userID
    categoryID := none
    amount := monoAbs monoTx.amount
    operationAmount := monoAbs monoTx.operationAmount
    currencyCode := monoTx.currencyCode
    operationCurrencyCode := 0
    ttype := txType
    description := monoTx.description
    mcc := monoTx.mcc
    commissionRate := monoTx.commissionRate
    cashbackAmount := monoTx.cashbackAmount
    balanceAfter := monoTx.balance
    hold := monoTx.hold
    transactionDate := monoTx.time
    monobankID := monoTx.id
    comment := monoTx.comment }

/-- Outcome of one outbound statement request, as the service classifies the
HTTP response: 429 → rate limit, 401 → token invalid, any other non-200,
transport failure or undecodable body → API error. -/
inductive FetchOutcome where
  | ok (items : List MonoTx)
  | rateLimit
  | tokenInvalid
  | apiError
  deriving Repr, DecidableEq

/-- The provider's statement endpoint: token, account id and cursor to a
response.  An external collaborator, passed in explicitly. -/
abbrev Fetch := String → String → Int → FetchOutcome

/-- The per-item dedup-and-insert loop of `syncCardTransactions`: skip the
item when a transaction with its Monobank id is already stored, otherwise
insert it through `transactionRepoCreate`; lookup and storage errors for a
single item are logged and that item is skipped. -/
def processStatementItems (db : DB) (card : Card) (items : List MonoTx) : DB :=
  items.foldl (fun acc monoTx =>
    match findTransactionByMonobankID acc.transactions monoTx.id with
    | some _ => acc
    | none =>
      match transactionRepoCreate acc (convertMonobankTransaction monoTx card) with
      | .ok acc' => acc'
      | .error _ => acc) db

/-- The sync cursor of `syncCardTransactions`: the `transactionDate` of the
card's most recent stored transaction, else `defaultFrom` (standing for
`time.Now().AddDate(0,-1,0)`). -/
def syncCursor (txs : List Transaction) (cardID : Nat) (defaultFrom : Int) : Int :=
  match (transactionRepoGetByCardID txs cardID 1 0).head? with
  | some t => t.transactionDate
  | none => defaultFrom

/-- `MonobankService.syncCardTransactions`: compute the cursor, fetch the
statement, propagate fetch failures, then dedup-and-insert each item. -/
def syncCardTransactions (fetch : Fetch) (token : String) (defaultFrom : Int)
    (db : DB) (card : Card) : Except Err DB :=
  match fetch token card.monobankAccountID
      (syncCursor db.transactions card.id defaultFrom) with
  | .rateLimit => .error .rateLimit
  | .tokenInvalid => .error .tokenInvalid
  | .apiError => .error .apiError
  | .ok items => .ok (processStatementItems db card items)

/-- One card's contribution to the `SyncUserData` loop: a failing card is
logged and leaves the state unchanged. -/
def syncCardStep (fetch : Fetch) (token : String) (defaultFrom : Int)
    (db : DB) (card : Card) : DB :=
  match syncCardTransactions fetch token defaultFrom db card with
  | .ok db' => db'
  | .error _ => db

/-- The per-card loop of `MonobankService.SyncUserData`: sync every
non-manual card that has an external account id; a failing card is logged
and the loop continues with its siblings. -/
def syncUserCardsLoop (fetch : Fetch) (token : String) (defaultFrom : Int)
    (cards : List Card) (db : DB) : DB :=
  cards.foldl (fun acc card =>
    if !card.isManual && card.monobankAccountID != "" then
      syncCardStep fetch token defaultFrom acc card
    else acc) db

/-- `MonobankService.SyncUserData`: require the integration, load the
user's cards once, run the per-card loop, and report success regardless of
per-card failures. -/
def SyncUserData (fetch : Fetch) (defaultFrom : Int) (db : DB) (userID : Nat) :
    Except Err DB :=
  match findIntegration db.integrations userID with
  | none => .error .integrationNotFound
  | some integration =>
    .ok (syncUserCardsLoop fetch integration.token defaultFrom
      (db.cards.filter (fun c => c.userID == userID)) db)

/-- A decoded webhook body.  JSON decoding is outside the engine:
`malformed` is a body the envelope unmarshal rejects; `envelope wtype item`
is a `{type, data}` envelope, where `item` is the statement-item decoding of
`data` (`none` when `data` does not decode as one). -/
inductive WebhookPayload where
  | malformed
  | envelope (wtype : String) (item : Option (String × MonoTx))

/-- `MonobankService.HandleWebhook`: only a `"StatementItem"` envelope is
processed — resolve the card by external account id, convert the single
item and insert it; any other envelope type is logged and ignored with a
success result. -/
def HandleWebhook (db : DB) (payload : WebhookPayload) : Except Err DB :=
  match payload with
  | .malformed => .error .invalidRequest
  | .envelope wtype item =>
    if wtype = "StatementItem" then
      match item with
      | none => .error .invalidRequest
      | some (account, statementItem) =>
        match findCardByMonobankAccountID db.cards account with
        | none => .error .cardNotFound
        | some card =>
          match transactionRepoCreate db (convertMonobankTransaction statementItem card) with
          | .ok db' => .ok db'
          | .error _ => .error .databaseOperation
    else .ok db

/-- `categoryService.validateCategory`: user id, name and type are required. -/
def validateCategory (category : Category) : Except Err Unit :=
  if category.userID = 0 ∨ category.name = "" ∨ category.ctype = "" then
    .error .invalidCategoryData
  else .ok ()

/-- `categoryService.Create`: validate, require the user, reject when the
owner already has any category with the same name (regardless of its type
or parent), then persist.  `freshID` stands for `uuid.New()`, used when the
incoming id is nil. -/
def categoryServiceCreate (freshID : Nat) (db : DB) (category : Category) :
    Except Err DB :=
  match validateCategory category with
  | .error _ => .error .invalidCategoryData
  | .ok _ =>
    if ¬ db.users.contains category.userID then .error .userNotFound
    else
      let existingCategories := db.categories.filter (fun c => c.userID == category.userID)
      if existingCategories.any (fun c => c.name == category.name) then
        .error .categoryAlreadyExists
      else
        let cat1 := if category.id = 0 then { category with id := freshID } else category
        .ok { db with categories := db.categories ++ [cat1] }

/-- Observable post-state of a category create call. -/
def applyCategoryServiceCreate (freshID : Nat) (db : DB) (category : Category) : DB :=
  match categoryServiceCreate freshID db category with
  | .ok db' => db'
  | .error _ => db

/-- The parent link induced by the category table: the `parentID` of the
row found by id (no row, no link). -/
def parentLink (cats : List Category) (x : Nat) : Option Nat :=
  match findCategory cats x with
  | none => none
  | some c => c.parentID

/-- The loop of `categoryService.wouldCreateCircularReference`: walk the
candidate parent's ancestor chain toward the root; `true` when an ancestor
link points at `categoryID`, `false` when the chain ends or a lookup fails.
The Go loop is unbounded; `none` models a walk that has not finished within
`fuel` (the loop never exits on revisited nodes). -/
def ancestorWalk (cats : List Category) (categoryID : Nat) (current : Category) :
    Nat → Option Bool
  | 0 => none
  | fuel+1 =>
    match current.parentID with
    | none => some false
    | some pid =>
      if pid = categoryID then some true
      else match findCategory cats pid with
        | none => some false
        | some next => ancestorWalk cats categoryID next fuel

/-- `categoryService.wouldCreateCircularReference`. -/
def wouldCreateCircularReference (cats : List Category)
    (categoryID newParentID : Nat) (fuel : Nat) : Option Bool :=
  if categoryID = newParentID then some true
  else match findCategory cats newParentID with
    | none => some false
    | some parent => ancestorWalk cats categoryID parent fuel

/-- The loop of `categoryRepository.checkCategoryCircularReference`:
reject when the walk meets `categoryID`, record each walked node, stop
cleanly at a root or missing row, and reject when the next node was already
seen in this walk (guard against pre-existing corruption). -/
def checkCircularLoop (cats : List Category) (categoryID : Nat)
    (current : Nat) (visited : List Nat) : Nat → Option (Except Err Unit)
  | 0 => none
  | fuel+1 =>
    if current = categoryID then some (.error .circularReference)
    else
      match findCategory cats current with
      | none => some (.ok ())
      | some parent =>
        match parent.parentID with
        | none => some (.ok ())
        | some pid =>
          if pid ∈ current :: visited then some (.error .circularReference)
          else checkCircularLoop cats categoryID pid (current :: visited) fuel

/-- `categoryRepository.checkCategoryCircularReference`. -/
def checkCategoryCircularReference (cats : List Category)
    (categoryID parentID : Nat) (fuel : Nat) : Option (Except Err Unit) :=
  checkCircularLoop cats categoryID parentID [] fuel

/-- The column update of `categoryRepository.Update`: set `name`,
`parent_id` and `type` of the row; zero rows affected is
`ErrRecordNotFound`. -/
def categoryUpdateRow (db : DB) (category : Category) : Except Err DB :=
  if db.categories.any (fun c => c.id == category.id) then
    .ok { db with categories := db.categories.map (fun old =>
      if old.id = category.id then
        { old with
            name := category.name
            parentID := category.parentID
            ctype := category.ctype }
      else old) }
  else .error .recordNotFound

/-- `categoryRepository.Update`: when a parent is set, load it (a missing
parent surfaces as a database error), require the same owner, run the
repository-level cycle check, then update the row's columns. -/
def categoryRepoUpdate (db : DB) (category : Category) (fuel : Nat) :
    Option (Except Err DB) :=
  match category.parentID with
  | some pid =>
    match findCategory db.categories pid with
    | none => some (.error .databaseOperation)
    | some parent =>
      if parent.userID ≠ category.userID then some (.error .parentDifferentUser)
      else match checkCategoryCircularReference db.categories category.id pid fuel with
        | none => none
        | some (.error e) => some (.error e)
        | some (.ok _) => some (categoryUpdateRow db category)
  | none => some (categoryUpdateRow db category)

/-- `categoryService.MoveCategory`: load the category; when a new parent is
given require it to exist and belong to the same owner and reject a
circular reference found by the service-level ancestor walk; then persist
through `categoryRepoUpdate` (which re-checks with the visited-set guard).
`none` models a walk that does not finish within `fuel`. -/
def MoveCategory (db : DB) (categoryID : Nat) (newParentID : Option Nat)
    (fuel : Nat) : Option (Except Err DB) :=
  match findCategory db.categories categoryID with
  | none => some (.error .categoryNotFound)
  | some category =>
    match newParentID with
    | some pid =>
      match findCategory db.categories pid with
      | none => some (.error .categoryNotFound)
      | some parent =>
        if parent.userID ≠ category.userID then some (.error .unauthorized)
        else
          match wouldCreateCircularReference db.categories categoryID pid fuel with
          | none => none
          | some true => some (.error .invalidCategoryData)
          | some false => categoryRepoUpdate db { category with parentID := newParentID } fuel
    | none => categoryRepoUpdate db { category with parentID := none } fuel

/-- The chain from `x` reaches `y` by following parent links
(reflexive-transitive closure of the parent relation). -/
inductive Reaches (cats : List Category) : Nat → Nat → Prop
  | refl (x : Nat) : Reaches cats x x
  | step {x y z : Nat} : parentLink cats x = some y → Reaches cats y z →
      Reaches cats x z

/-- The parent chain from `x` terminates. -/
inductive Terminating (cats : List Category) : Nat → Prop
  | nil {x : Nat} : parentLink cats x = none → Terminating cats x
  | cons {x y : Nat} : parentLink cats x = some y → Terminating cats y →
      Terminating cats x

/-- Bounded executable chain-termination check. -/
def chainTerm (cats : List Category) (x : Nat) : Nat → Bool
  | 0 => false
  | fuel+1 =>
    match parentLink cats x with
    | none => true
    | some y => chainTerm cats y fuel

/-- Executable well-formedness of a category table: every row's parent
chain terminates within the table's size. -/
def wellFormedB (cats : List Category) : Bool :=
  cats.all (fun c => chainTerm cats c.id (cats.length + 1))

/-- Observable post-state of a webhook call. -/
def applyHandleWebhook (db : DB) (payload : WebhookPayload) : DB :=
  match HandleWebhook db payload with
  | .ok db' => db'
  | .error _ => db

/-- Number of stored transactions carrying a given Monobank id. -/
def countByMonobankID (txs : List Transaction) (mid : String) : Nat :=
  (txs.filter (fun t => t.monobankID == mid)).length

/-- Replace the provider's response for one account with an empty
statement; used to express that a swallowed failure is observationally a
card with nothing new. -/
def overrideFetch (fetch : Fetch) (account : String) : Fetch :=
  fun token acc fromTime => if acc = account then .ok [] else fetch token acc fromTime

/-- C9: `HandleWebhook`, given a well-formed `{type, data}` envelope whose
type is not `"StatementItem"`, logs the unknown type and returns success
with no state change; only `"StatementItem"` payloads are processed. -/
theorem handleWebhook_ignores_unknown_type (db : DB) (wtype : String)
    (item : Option (String × MonoTx)) (h : wtype ≠ "StatementItem") :
    HandleWebhook db (.envelope wtype item) = .ok db := by
  simp [HandleWebhook, h]

/-- A sample card used to instantiate the theorems. -/
def cardA : Card :=
  { id := 1, userID := 7, cardName := "Main", maskedPan := "4441",
    balance := 1000, creditLimit := 0, currencyCode := 980, isManual := true,
    cardType := "black", monobankAccountID := "" }

/-- A sample Monobank-linked card. -/
def cardExt : Card :=
  { id := 2, userID := 7, cardName := "Mono", maskedPan := "5375",
    balance := 500, creditLimit := 0, currencyCode := 980, isManual := false,
    cardType := "black", monobankAccountID := "acc7" }

/-- A sample database for the webhook witness. -/
def dbWebhook : DB :=
  { users := [7], cards := [cardExt], transactions := [], categories := [],
    integrations := [] }

/-- Witness for C9 at a concrete unknown envelope type. -/
theorem handleWebhook_ignores_unknown_type_witness :
    HandleWebhook dbWebhook (.envelope "Ping" none) = .ok dbWebhook :=
  handleWebhook_ignores_unknown_type dbWebhook "Ping" none (by decide)

/-- A statement item with zero signed amount (the provider reports signed
minor units; zero occurs for informational items). -/
def monoTxZero : MonoTx :=
  { id := "z0", time := 5, description := "info", mcc := 0, hold := false,
    amount := 0, operationAmount := 0, currencyCode := 980,
    commissionRate := 0, cashbackAmount := 0, balance := 123, comment := "" }

/-- C7 counterexample: the conversion does not implement
`amount < 0 → expense, else income`; at a zero provider amount it derives
`expense`, where that rule would give `income`. -/
theorem convertMonobank_type_rule_counterexample :
    (convertMonobankTransaction monoTxZero cardExt).ttype ≠
      (if monoTxZero.amount < 0 then "expense" else "income") := by
  decide

/-- The service's `abs` agrees with the mathematical absolute value. -/
theorem monoAbs_eq_abs (n : Int) : monoAbs n = |n| := by
  unfold monoAbs
  split
  · exact (abs_of_neg (by omega)).symm
  · exact (abs_of_nonneg (by omega)).symm

/-- C7 (amended): every converted statement item stores the absolute value
of the provider's signed amount, derives `income` exactly when the signed
amount is positive (zero or negative gives `expense`), is never tagged
`transfer`, and stores the provider's reported balance as `balanceAfter`. -/
theorem convertMonobank_amended (monoTx : MonoTx) (card : Card) :
    (convertMonobankTransaction monoTx card).amount = |monoTx.amount| ∧
    (convertMonobankTransaction monoTx card).ttype =
      (if 0 < monoTx.amount then "income" else "expense") ∧
    (convertMonobankTransaction monoTx card).ttype ≠ "transfer" ∧
    (convertMonobankTransaction monoTx card).balanceAfter = monoTx.balance := by
  refine ⟨monoAbs_eq_abs monoTx.amount, rfl, ?_, rfl⟩
  show (if monoTx.amount > 0 then "income" else "expense") ≠ "transfer"
  split <;> decide

deriving instance DecidableEq for Except

/-- A validated transaction's type is one of the three enumerated values. -/
theorem validate_ok_type {t : Transaction} {card : Card}
    (h : validateTransaction t card = .ok ()) :
    t.ttype = "expense" ∨ t.ttype = "income" ∨ t.ttype = "transfer" := by
  by_cases h1 : t.amount ≤ 0
  · simp [validateTransaction, h1] at h
  · by_cases h2 : t.ttype = "expense" ∨ t.ttype = "income" ∨ t.ttype = "transfer"
    · exact h2
    · simp [validateTransaction, h1, h2] at h

/-- C4: whenever the card's balance plus the signed delta would cross the
credit limit, `CreateTransaction` rejects with the insufficient-funds error
and the state (in particular the card's balance) is unchanged and no
transaction is stored. -/
theorem createTransaction_insufficient_funds (now : Int) (db : DB)
    (userID : Nat) (t : Transaction) (card : Card)
    (hcard : findCard db.cards t.cardID = some card)
    (howner : card.userID = userID)
    (hcat : checkTransactionCategory db userID t = .ok ())
    (hval : validateTransaction t card = .ok ())
    (hlim : card.balance + signedDelta t.ttype t.amount < -card.creditLimit) :
    CreateTransaction now db userID t = .error .insufficientFunds ∧
    applyCreateTransaction now db userID t = db := by
  have hty := validate_ok_type hval
  have hmain : CreateTransaction now db userID t = .error .insufficientFunds := by
    unfold CreateTransaction
    rw [hcard]
    rcases hty with hty | hty | hty <;>
      simp [howner, hcat, hval, hty, signedDelta] at hlim ⊢ <;> omega
  exact ⟨hmain, by simp [applyCreateTransaction, hmain]⟩

/-- The spec's credit-limit boundary example: balance 1000, credit limit 0,
expense of 1500. -/
def dbBoundary : DB :=
  { users := [7], cards := [cardA], transactions := [], categories := [],
    integrations := [] }

/-- The 1500 expense of the boundary example. -/
def tExp1500 : Transaction :=
  { id := 11, cardID := 1, userID := 7, categoryID := none, amount := 1500,
    operationAmount := 1500, currencyCode := 980, operationCurrencyCode := 0,
    ttype := "expense", description := "rent", mcc := 0, commissionRate := 0,
    cashbackAmount := 0, balanceAfter := 0, hold := false,
    transactionDate := 50, monobankID := "", comment := "" }

/-- Witness for C4 at the spec's own boundary example (balance stays 1000). -/
theorem createTransaction_insufficient_funds_witness :
    CreateTransaction 99 dbBoundary 7 tExp1500 = .error .insufficientFunds ∧
    applyCreateTransaction 99 dbBoundary 7 tExp1500 = dbBoundary :=
  createTransaction_insufficient_funds 99 dbBoundary 7 tExp1500 cardA
    (by decide) (by decide) (by decide) (by decide) (by decide)

/-- C5: a stored transaction whose Monobank id is non-empty rejects every
update and every delete with the cannot-modify error, leaving the
transaction and card state unchanged. -/
theorem external_transaction_immutable (db : DB) (userID tid : Nat)
    (existingTx : Transaction)
    (hfind : findTransaction db.transactions tid = some existingTx)
    (howner : existingTx.userID = userID)
    (hext : existingTx.monobankID ≠ "") :
    (∀ t : Transaction, t.id = tid →
        UpdateTransaction db userID t = .error .cannotModifyMonobank ∧
        applyUpdateTransaction db userID t = db) ∧
    DeleteTransaction db userID tid = .error .cannotModifyMonobank ∧
    applyDeleteTransaction db userID tid = db := by
  refine ⟨?_, ?_, ?_⟩
  · intro t hid
    have hmain : UpdateTransaction db userID t = .error .cannotModifyMonobank := by
      unfold UpdateTransaction
      rw [hid, hfind]
      simp [howner, hext]
    exact ⟨hmain, by simp [applyUpdateTransaction, hmain]⟩
  · unfold DeleteTransaction
    rw [hfind]
    simp [howner, hext]
  · have hmain : DeleteTransaction db userID tid = .error .cannotModifyMonobank := by
      unfold DeleteTransaction
      rw [hfind]
      simp [howner, hext]
    simp [applyDeleteTransaction, hmain]

/-- A Monobank-ingested transaction row. -/
def tMono : Transaction :=
  { id := 21, cardID := 2, userID := 7, categoryID := none, amount := 250,
    operationAmount := 250, currencyCode := 980, operationCurrencyCode := 0,
    ttype := "expense", description := "shop", mcc := 5411,
    commissionRate := 0, cashbackAmount := 0, balanceAfter := 250,
    hold := false, transactionDate := 60, monobankID := "m1", comment := "" }

/-- A database holding one externally-sourced transaction. -/
def dbExternal : DB :=
  { users := [7], cards := [cardExt], transactions := [tMono],
    categories := [], integrations := [] }

/-- An attempted edit of the external transaction. -/
def tMonoEdit : Transaction :=
  { tMono with amount := 9, description := "edited" }

/-- Witness for C5 on a concrete externally-sourced transaction. -/
theorem external_transaction_immutable_witness :
    (UpdateTransaction dbExternal 7 tMonoEdit = .error .cannotModifyMonobank ∧
      applyUpdateTransaction dbExternal 7 tMonoEdit = dbExternal) ∧
    DeleteTransaction dbExternal 7 21 = .error .cannotModifyMonobank ∧
    applyDeleteTransaction dbExternal 7 21 = dbExternal :=
  have h := external_transaction_immutable dbExternal 7 21 tMono
    (by decide) (by decide) (by decide)
  ⟨h.1 tMonoEdit (by decide), h.2⟩

/-- Looking a card up after saving a same-id card yields the saved card. -/
theorem findCard_saveCard {cards : List Card} {cid : Nat} {c : Card}
    (hid : c.id = cid) (hsome : (findCard cards cid).isSome) :
    findCard (saveCard cards c) cid = some c := by
  induction cards with
  | nil => simp [findCard] at hsome
  | cons hd rest ih =>
    by_cases hh : hd.id = cid
    · have hrepl : (if hd.id = c.id then c else hd) = c := by
        rw [if_pos (by rw [hh, hid])]
      simp only [findCard, saveCard, List.map_cons, hrepl, List.find?_cons]
      simp [hid]
    · have hrepl : (if hd.id = c.id then c else hd) = hd := by
        rw [if_neg (by rw [hid]; exact hh)]
      have hstep : (hd.id == cid) = false := by simp [hh]
      simp only [findCard, saveCard, List.map_cons, hrepl, List.find?_cons,
        hstep] at *
      exact ih hsome

/-- A found card carries the looked-up id. -/
theorem findCard_id {cards : List Card} {cid : Nat} {card : Card}
    (h : findCard cards cid = some card) : card.id = cid := by
  induction cards with
  | nil => simp [findCard] at h
  | cons hd rest ih =>
    by_cases hh : hd.id = cid
    · simp [findCard, List.find?_cons, hh] at h
      rw [← h, hh]
    · simp only [findCard, List.find?_cons, show (hd.id == cid) = false by simp [hh]] at h
      exact ih h

/-- C1: a successful `CreateTransaction` appends exactly one transaction
whose `balanceAfter` is the card's prior balance plus the signed delta
(`income → +amount`, `expense → -amount`, `transfer → -amount`), and
updates the card to that same balance; the insert and the balance update
form one atomic unit — on any failure the state is left unchanged. -/
theorem createTransaction_ledger (now : Int) (db : DB) (userID : Nat)
    (t : Transaction) (card : Card) (db' : DB)
    (hcard : findCard db.cards t.cardID = some card)
    (hok : CreateTransaction now db userID t = .ok db') :
    (∃ t', db'.transactions = db.transactions ++ [t'] ∧
        t'.balanceAfter = card.balance + signedDelta t.ttype t.amount ∧
        findCard db'.cards t.cardID =
          some { card with balance := card.balance + signedDelta t.ttype t.amount }) ∧
    (∀ (db₂ : DB) (u₂ : Nat) (t₂ : Transaction) (e : Err),
        CreateTransaction now db₂ u₂ t₂ = .error e →
        applyCreateTransaction now db₂ u₂ t₂ = db₂) := by
  constructor
  · unfold CreateTransaction at hok
    rw [hcard] at hok
    by_cases howner : card.userID = userID
    case neg => simp [howner] at hok
    cases hcat : checkTransactionCategory db userID t with
    | error e => simp [howner, hcat] at hok
    | ok u =>
      cases hval : validateTransaction t card with
      | error e => simp [howner, hcat, hval] at hok
      | ok u2 =>
        cases u2
        have hty := validate_ok_type hval
        rcases hty with hty | hty | hty <;>
        · simp only [howner, hcat, hval, hty, ne_eq, not_true_eq_false,
            if_false, ite_false, ite_true, String.reduceEq, reduceIte] at hok
          split at hok
          · cases hok
          · rename_i hlim
            unfold transactionRepoCreate at hok
            simp only [hty, hcard, String.reduceEq, reduceIte,
              Except.ok.injEq] at hok
            subst hok
            refine ⟨_, rfl, by simp [signedDelta, hty]; try omega, ?_⟩
            simp only [signedDelta, hty, String.reduceEq, reduceIte,
              sub_eq_add_neg]
            have h1 : card.id = t.cardID := findCard_id hcard
            apply findCard_saveCard
            · exact h1
            · simp [hcard]
  · intro db₂ u₂ t₂ e herr
    simp [applyCreateTransaction, herr]

/-- A 200 income on the sample card. -/
def tInc200 : Transaction :=
  { id := 12, cardID := 1, userID := 7, categoryID := none, amount := 200,
    operationAmount := 200, currencyCode := 980, operationCurrencyCode := 0,
    ttype := "income", description := "salary", mcc := 0, commissionRate := 0,
    cashbackAmount := 0, balanceAfter := 0, hold := false,
    transactionDate := 70, monobankID := "", comment := "" }

/-- Witness for C1 on a concrete successful income creation
(balance 1000 → 1200). -/
theorem createTransaction_ledger_witness :
    ∃ t', (applyCreateTransaction 99 dbBoundary 7 tInc200).transactions =
        dbBoundary.transactions ++ [t'] ∧
      t'.balanceAfter = cardA.balance + signedDelta tInc200.ttype tInc200.amount ∧
      findCard (applyCreateTransaction 99 dbBoundary 7 tInc200).cards tInc200.cardID =
        some { cardA with
          balance := cardA.balance + signedDelta tInc200.ttype tInc200.amount } :=
  (createTransaction_ledger 99 dbBoundary 7 tInc200 cardA
    (applyCreateTransaction 99 dbBoundary 7 tInc200) (by decide) (by decide)).1

/-- Observable post-state of a user sync. -/
def applySyncUserData (fetch : Fetch) (defaultFrom : Int) (db : DB)
    (userID : Nat) : DB :=
  match SyncUserData fetch defaultFrom db userID with
  | .ok db' => db'
  | .error _ => db

/-- A manual card sitting at balance 900 after a 100 expense. -/
def cardB : Card :=
  { id := 3, userID := 7, cardName := "Cash", maskedPan := "",
    balance := 900, creditLimit := 0, currencyCode := 980, isManual := true,
    cardType := "", monobankAccountID := "" }

/-- The stored manual 100 expense on `cardB`. -/
def tManual : Transaction :=
  { id := 5, cardID := 3, userID := 7, categoryID := none, amount := 100,
    operationAmount := 100, currencyCode := 980, operationCurrencyCode := 0,
    ttype := "expense", description := "groceries", mcc := 0,
    commissionRate := 0, cashbackAmount := 0, balanceAfter := 900,
    hold := false, transactionDate := 40, monobankID := "", comment := "" }

/-- The database of the update/delete scenario. -/
def dbManual : DB :=
  { users := [7], cards := [cardB], transactions := [tManual],
    categories := [], integrations := [] }

/-- The edit raising the expense from 100 to 200. -/
def tUpd : Transaction := { tManual with amount := 200 }

/-- C3 evidence: updating a manual transaction's amount from 100 to 200
succeeds but leaves the owning card's stored balance untouched (the -100
delta is never reapplied), and deleting the transaction succeeds without
reversing its effect on the balance — the card stays at 900 in both cases,
so stored balance and stored transactions diverge. -/
theorem update_delete_leave_card_balance_unchanged :
    UpdateTransaction dbManual 7 tUpd = .ok (applyUpdateTransaction dbManual 7 tUpd) ∧
    (applyUpdateTransaction dbManual 7 tUpd).cards = dbManual.cards ∧
    (findTransaction (applyUpdateTransaction dbManual 7 tUpd).transactions 5).map
      Transaction.amount = some 200 ∧
    DeleteTransaction dbManual 7 5 = .ok (applyDeleteTransaction dbManual 7 5) ∧
    (applyDeleteTransaction dbManual 7 5).cards = dbManual.cards ∧
    (applyDeleteTransaction dbManual 7 5).transactions = [] := by
  decide

/-- The raw provider statement item behind `tMono` (signed amount -250,
provider-reported post-transaction balance 250). -/
def mono1 : MonoTx :=
  { id := "m1", time := 60, description := "shop", mcc := 5411,
    hold := false, amount := -250, operationAmount := -250,
    currencyCode := 980, commissionRate := 0, cashbackAmount := 0,
    balance := 250, comment := "" }

/-- The integration row of user 7. -/
def integ7 : MonobankIntegration :=
  { id := 31, userID := 7, clientID := "cl", token := "tok",
    webhookURL := "", permissions := "psf" }

/-- The pre-sync database of the dedup scenario. -/
def dbSync : DB :=
  { users := [7], cards := [cardExt], transactions := [], categories := [],
    integrations := [integ7] }

/-- A provider that reports `mono1` for account `acc7`. -/
def fetchC2 : Fetch :=
  fun _ acc _ => if acc == "acc7" then .ok [mono1] else .apiError

/-- State after the polling sync of user 7. -/
def dbSyncA : DB := applySyncUserData fetchC2 0 dbSync 7

/-- State after a webhook replay of the same statement item. -/
def dbSyncB : DB :=
  applyHandleWebhook dbSyncA (.envelope "StatementItem" (some ("acc7", mono1)))

/-- C2 evidence: polling ingests `m1` once (one row, balance moved from 500
to 250 once), but a webhook replay of the very same statement item inserts
a second row with the same Monobank id and applies the balance effect a
second time (250 → 0): `HandleWebhook` performs no dedup lookup before
`transactionRepoCreate`, and the schema has no unique constraint on
`monobank_id`. -/
theorem webhook_replay_double_ingestion :
    SyncUserData fetchC2 0 dbSync 7 = .ok dbSyncA ∧
    countByMonobankID dbSyncA.transactions "m1" = 1 ∧
    (findCard dbSyncA.cards 2).map Card.balance = some 250 ∧
    HandleWebhook dbSyncA (.envelope "StatementItem" (some ("acc7", mono1))) =
      .ok dbSyncB ∧
    countByMonobankID dbSyncB.transactions "m1" = 2 ∧
    (findCard dbSyncB.cards 2).map Card.balance = some 0 := by
  decide

/-- C10: when the owner already has a category with the requested name —
whatever its type or parent — a validated create request for an existing
user is rejected with the already-exists error and nothing is persisted. -/
theorem categoryCreate_duplicate_name (freshID : Nat) (db : DB)
    (category existing : Category)
    (hval : validateCategory category = .ok ())
    (huser : db.users.contains category.userID = true)
    (hmem : existing ∈ db.categories)
    (howner : existing.userID = category.userID)
    (hname : existing.name = category.name) :
    categoryServiceCreate freshID db category = .error .categoryAlreadyExists ∧
    applyCategoryServiceCreate freshID db category = db := by
  have hany : (db.categories.filter
      (fun c => c.userID == category.userID)).any
      (fun c => c.name == category.name) = true := by
    rw [List.any_eq_true]
    exact ⟨existing, List.mem_filter.mpr ⟨hmem, by simp [howner]⟩,
      by simp [hname]⟩
  have hmain : categoryServiceCreate freshID db category =
      .error .categoryAlreadyExists := by
    unfold categoryServiceCreate
    rw [hval]
    have huser2 : category.userID ∈ db.users := by simpa using huser
    simp [huser2, hany]
  exact ⟨hmain, by simp [applyCategoryServiceCreate, hmain]⟩

/-- An existing expense category named Food. -/
def catFood : Category :=
  { id := 41, name := "Food", parentID := none, userID := 7,
    ctype := "expense" }

/-- A new income category reusing the name Food under a parent. -/
def catFoodIncome : Category :=
  { id := 0, name := "Food", parentID := some 41, userID := 7,
    ctype := "income" }

/-- The database of the duplicate-name scenario. -/
def dbCat : DB :=
  { users := [7], cards := [], transactions := [], categories := [catFood],
    integrations := [] }

/-- Witness for C10: same name, different type and parent, still rejected. -/
theorem categoryCreate_duplicate_name_witness :
    categoryServiceCreate 99 dbCat catFoodIncome =
      .error .categoryAlreadyExists ∧
    applyCategoryServiceCreate 99 dbCat catFoodIncome = dbCat :=
  categoryCreate_duplicate_name 99 dbCat catFoodIncome catFood
    (by decide) (by decide) (by decide) (by decide) (by decide)

/-- A card whose statement fetch never succeeds contributes nothing to the
sync loop — exactly as if the provider had reported an empty statement. -/
theorem syncCard_failed_step (fetch : Fetch) (token : String) (df : Int)
    (account : String)
    (hfail : ∀ fromTime items, fetch token account fromTime ≠ .ok items)
    (db : DB) (card : Card) :
    syncCardStep fetch token df db card =
    syncCardStep (overrideFetch fetch account) token df db card := by
  by_cases hacc : card.monobankAccountID = account
  · unfold syncCardStep syncCardTransactions overrideFetch
    rw [hacc, if_pos rfl]
    cases hf : fetch token account (syncCursor db.transactions card.id df) with
    | ok items => exact absurd hf (hfail _ _)
    | rateLimit => simp [processStatementItems]
    | tokenInvalid => simp [processStatementItems]
    | apiError => simp [processStatementItems]
  · unfold syncCardStep syncCardTransactions overrideFetch
    rw [if_neg hacc]

/-- Failure of one account's fetches is observationally the same as that
account having an empty statement, across the whole card loop. -/
theorem syncLoop_override (fetch : Fetch) (token : String) (df : Int)
    (account : String)
    (hfail : ∀ fromTime items, fetch token account fromTime ≠ .ok items) :
    ∀ (cards : List Card) (db : DB),
      syncUserCardsLoop fetch token df cards db =
      syncUserCardsLoop (overrideFetch fetch account) token df cards db := by
  intro cards
  induction cards with
  | nil => intro db; rfl
  | cons card rest ih =>
    intro db
    unfold syncUserCardsLoop
    simp only [List.foldl_cons]
    by_cases hguard : (!card.isManual && card.monobankAccountID != "") = true
    · rw [if_pos hguard, if_pos hguard,
        syncCard_failed_step fetch token df account hfail db card]
      exact ih _
    · rw [if_neg hguard, if_neg hguard]
      exact ih db

/-- C8: when every statement fetch for one account fails, `SyncUserData`
still returns success and produces exactly the state it would have produced
had that account reported an empty statement — every sibling card is still
synced and the per-card failure is never propagated. -/
theorem syncUserData_partial_failure (fetch : Fetch) (df : Int) (db : DB)
    (userID : Nat) (integ : MonobankIntegration) (account : String)
    (hint : findIntegration db.integrations userID = some integ)
    (hfail : ∀ fromTime items, fetch integ.token account fromTime ≠ .ok items) :
    SyncUserData fetch df db userID =
      SyncUserData (overrideFetch fetch account) df db userID ∧
    ∃ db', SyncUserData fetch df db userID = .ok db' := by
  unfold SyncUserData
  simp only [hint]
  exact ⟨by rw [syncLoop_override fetch integ.token df account hfail], _, rfl⟩

/-- The first provider-origin card of user 9. -/
def cardMonoA : Card :=
  { id := 4, userID := 9, cardName := "A", maskedPan := "1111",
    balance := 100, creditLimit := 0, currencyCode := 980, isManual := false,
    cardType := "black", monobankAccountID := "a" }

/-- The second provider-origin card of user 9. -/
def cardMonoB : Card :=
  { id := 5, userID := 9, cardName := "B", maskedPan := "2222",
    balance := 500, creditLimit := 0, currencyCode := 980, isManual := false,
    cardType := "black", monobankAccountID := "b" }

/-- The integration row of user 9. -/
def integ9 : MonobankIntegration :=
  { id := 32, userID := 9, clientID := "cl9", token := "tk",
    webhookURL := "", permissions := "psf" }

/-- The two-card database of the partial-failure scenario. -/
def dbTwoCards : DB :=
  { users := [9], cards := [cardMonoA, cardMonoB], transactions := [],
    categories := [], integrations := [integ9] }

/-- A statement item for card `b`. -/
def monoB1 : MonoTx :=
  { id := "mb1", time := 80, description := "pay", mcc := 0, hold := false,
    amount := 300, operationAmount := 300, currencyCode := 980,
    commissionRate := 0, cashbackAmount := 0, balance := 800, comment := "" }

/-- A provider failing card `a` (simulated 429) and serving card `b`. -/
def fetch8 : Fetch :=
  fun _ acc _ =>
    if acc = "a" then .rateLimit else if acc = "b" then .ok [monoB1] else .apiError

/-- Witness for C8: with card `a` failing, the sync reports success and
equals the empty-statement run for `a` (so card `b` still syncs). -/
theorem syncUserData_partial_failure_witness :
    SyncUserData fetch8 0 dbTwoCards 9 =
      SyncUserData (overrideFetch fetch8 "a") 0 dbTwoCards 9 ∧
    ∃ db', SyncUserData fetch8 0 dbTwoCards 9 = .ok db' :=
  syncUserData_partial_failure fetch8 0 dbTwoCards 9 integ9 "a"
    (by decide) (by intro ft items h; simp [fetch8] at h)

/-- A found category carries the looked-up id. -/
theorem findCategory_id {cats : List Category} {cid : Nat} {c : Category}
    (h : findCategory cats cid = some c) : c.id = cid := by
  induction cats with
  | nil => simp [findCategory] at h
  | cons hd rest ih =>
    by_cases hh : hd.id = cid
    · simp [findCategory, List.find?_cons, hh] at h
      rw [← h, hh]
    · simp only [findCategory, List.find?_cons,
        show (hd.id == cid) = false by simp [hh]] at h
      exact ih h

/-- Lookup after the row update of `categoryUpdateRow`: the found row is
the old row, with the columns rewritten when its id matches. -/
theorem findCategory_updateRow (cats : List Category) (c : Category) (x : Nat) :
    findCategory (cats.map (fun old => if old.id = c.id then
      { old with name := c.name, parentID := c.parentID, ctype := c.ctype }
      else old)) x =
    (findCategory cats x).map (fun r => if r.id = c.id then
      { r with name := c.name, parentID := c.parentID, ctype := c.ctype }
      else r) := by
  induction cats with
  | nil => rfl
  | cons hd rest ih =>
    have hid : (if hd.id = c.id then
        ({ hd with name := c.name, parentID := c.parentID, ctype := c.ctype } : Category)
        else hd).id = hd.id := by
      split <;> rfl
    by_cases hh : hd.id = x
    · simp only [findCategory, List.map_cons, List.find?_cons] at *
      rw [show ((if hd.id = c.id then
          ({ hd with name := c.name, parentID := c.parentID, ctype := c.ctype } : Category)
          else hd).id == x) = true by rw [hid]; simp [hh],
        show (hd.id == x) = true by simp [hh]]
      rfl
    · simp only [findCategory, List.map_cons, List.find?_cons] at *
      rw [show ((if hd.id = c.id then
          ({ hd with name := c.name, parentID := c.parentID, ctype := c.ctype } : Category)
          else hd).id == x) = false by rw [hid]; simp [hh],
        show (hd.id == x) = false by simp [hh]]
      exact ih

/-- Appending one parent step to a reachability chain. -/
theorem reaches_snoc {cats : List Category} {a b c : Nat}
    (h : Reaches cats a b) (hl : parentLink cats b = some c) :
    Reaches cats a c := by
  induction h with
  | refl x => exact .step hl (.refl c)
  | step hxy _ ih => exact .step hxy (ih hl)

/-- Termination is inherited along the chain. -/
theorem terminating_of_reaches {cats : List Category} {x y : Nat}
    (hr : Reaches cats x y) : Terminating cats x → Terminating cats y := by
  induction hr with
  | refl _ => exact id
  | step hxy _ ih =>
    intro ht
    apply ih
    cases ht with
    | nil h => rw [h] at hxy; cases hxy
    | cons h ht' => rw [h] at hxy; injection hxy with he; exact he ▸ ht'

/-- A terminating chain admits no cycle through its start. -/
theorem no_cycle {cats : List Category} {x : Nat}
    (ht : Terminating cats x) : ∀ {z : Nat}, Reaches cats x z →
    parentLink cats z = some x → False := by
  induction ht with
  | nil h =>
    intro z hr hz
    cases hr with
    | refl => rw [h] at hz; cases hz
    | step hxy _ => rw [h] at hxy; cases hxy
  | cons h ht' ih =>
    intro z hr hz
    cases hr with
    | refl =>
      rw [h] at hz
      injection hz with he
      subst he
      exact ih (Reaches.refl _) h
    | step hxw hr' =>
      rw [h] at hxw
      injection hxw with he
      subst he
      exact ih (reaches_snoc hr' hz) h

/-- A fuel-checked terminating chain terminates. -/
theorem chainTerm_terminating {cats : List Category} :
    ∀ {fuel x : Nat}, chainTerm cats x fuel = true → Terminating cats x := by
  intro fuel
  induction fuel with
  | zero => intro x h; simp [chainTerm] at h
  | succ n ih =>
    intro x h
    unfold chainTerm at h
    cases hl : parentLink cats x with
    | none => exact .nil hl
    | some y => rw [hl] at h; exact .cons hl (ih h)

/-- The executable well-formedness check implies that every parent chain
terminates. -/
theorem wellFormed_of_wellFormedB {cats : List Category}
    (h : wellFormedB cats = true) : ∀ x, Terminating cats x := by
  intro x
  cases hf : findCategory cats x with
  | none => exact .nil (by simp [parentLink, hf])
  | some c =>
    have hmem : c ∈ cats := List.mem_of_find?_eq_some hf
    have hid : c.id = x := findCategory_id hf
    have hterm : chainTerm cats c.id (cats.length + 1) = true := by
      have hall := (List.all_eq_true.mp h) c hmem
      simpa using hall
    exact hid ▸ chainTerm_terminating hterm

/-- The service walk's verdict is stable under extra fuel. -/
theorem ancestorWalk_mono {cats : List Category} {a : Nat} :
    ∀ {f f' : Nat} {c : Category} {b : Bool}, f ≤ f' →
    ancestorWalk cats a c f = some b → ancestorWalk cats a c f' = some b := by
  intro f
  induction f with
  | zero => intro f' c b _ hw; cases hw
  | succ n ih =>
    intro f' c b hle hw
    cases f' with
    | zero => omega
    | succ m =>
      unfold ancestorWalk at hw ⊢
      cases hp : c.parentID with
      | none => simp only [hp] at hw ⊢; exact hw
      | some pid =>
        simp only [hp] at hw ⊢
        by_cases hpa : pid = a
        · rw [if_pos hpa] at hw ⊢; exact hw
        · rw [if_neg hpa] at hw ⊢
          cases hfp : findCategory cats pid with
          | none => simp only [hfp] at hw ⊢; exact hw
          | some next =>
            simp only [hfp] at hw ⊢
            exact ih (by omega) hw

/-- A walk that ends cleanly with `false` certifies that the chain from the
walked node never reaches the moved category. -/
theorem walk_false_not_reaches {cats : List Category} {a : Nat} :
    ∀ (fuel : Nat) (x : Nat) (c : Category),
    findCategory cats x = some c →
    ancestorWalk cats a c fuel = some false →
    x ≠ a → ¬ Reaches cats x a := by
  intro fuel
  induction fuel with
  | zero => intro x c _ hw; cases hw
  | succ n ih =>
    intro x c hf hw hne hr
    have hl : parentLink cats x = c.parentID := by simp [parentLink, hf]
    unfold ancestorWalk at hw
    cases hp : c.parentID with
    | none =>
      cases hr with
      | refl => exact hne rfl
      | step hxy _ => rw [hl, hp] at hxy; cases hxy
    | some pid =>
      simp only [hp] at hw
      by_cases hpa : pid = a
      · rw [if_pos hpa] at hw; cases hw
      · rw [if_neg hpa] at hw
        have hrp : Reaches cats pid a := by
          cases hr with
          | refl => exact absurd rfl hne
          | step hxy hr' =>
            rw [hl, hp] at hxy
            injection hxy with he
            exact he ▸ hr'
        cases hfp : findCategory cats pid with
        | none =>
          cases hrp with
          | refl => exact hpa rfl
          | step hpy _ => simp [parentLink, hfp] at hpy
        | some next =>
          simp only [hfp] at hw
          exact ih pid next hfp hw hpa hrp

/-- When the chain from the candidate parent does reach the moved category,
some fuel makes the service walk report the cycle. -/
theorem walk_true_of_reaches {cats : List Category} {s a : Nat}
    (hr : Reaches cats s a) : s ≠ a →
    ∀ {c : Category}, findCategory cats s = some c →
    ∃ fuel, ancestorWalk cats a c fuel = some true := by
  induction hr with
  | refl _ => intro hne; exact absurd rfl hne
  | @step x y z hxy hr' ih =>
    intro _ c hf
    have hp : c.parentID = some y := by
      rw [show parentLink cats x = c.parentID by simp [parentLink, hf]] at hxy
      exact hxy
    by_cases hya : y = z
    · exact ⟨1, by unfold ancestorWalk; simp only [hp, if_pos hya]⟩
    · have hfy : ∃ cy, findCategory cats y = some cy := by
        cases hr' with
        | refl => exact absurd rfl hya
        | step hyz _ =>
          cases hfy : findCategory cats y with
          | none => simp [parentLink, hfy] at hyz
          | some cy => exact ⟨cy, rfl⟩
      obtain ⟨cy, hfy⟩ := hfy
      obtain ⟨fuel, hw⟩ := ih hya hfy
      exact ⟨fuel + 1, by
        unfold ancestorWalk
        simp only [hp, if_neg hya, hfy]
        exact hw⟩

/-- On a terminating chain that never reaches the moved category, some fuel
makes the service walk finish with `false`. -/
theorem walk_false_of_not_reaches {cats : List Category} {a : Nat} :
    ∀ {s : Nat}, Terminating cats s → ¬ Reaches cats s a →
    ∀ {c : Category}, findCategory cats s = some c →
    ∃ fuel, ancestorWalk cats a c fuel = some false := by
  intro s ht
  induction ht with
  | @nil x h =>
    intro _ c hf
    have hp : c.parentID = none := by
      rw [show parentLink cats x = c.parentID by simp [parentLink, hf]] at h
      exact h
    exact ⟨1, by unfold ancestorWalk; simp only [hp]⟩
  | @cons x y h ht' ih =>
    intro hnr c hf
    have hp : c.parentID = some y := by
      rw [show parentLink cats x = c.parentID by simp [parentLink, hf]] at h
      exact h
    have hya : y ≠ a := fun he => hnr (.step h (he ▸ .refl y))
    cases hfy : findCategory cats y with
    | none =>
      exact ⟨1, by unfold ancestorWalk; simp only [hp, if_neg hya, hfy]⟩
    | some cy =>
      obtain ⟨fuel, hw⟩ := ih (fun hr => hnr (.step h hr)) hfy
      exact ⟨fuel + 1, by
        unfold ancestorWalk
        simp only [hp, if_neg hya, hfy]
        exact hw⟩

/-- The repository check's verdict is stable under extra fuel. -/
theorem checkLoop_mono {cats : List Category} {a : Nat} :
    ∀ {f f' : Nat} {current : Nat} {visited : List Nat} {r : Except Err Unit},
    f ≤ f' →
    checkCircularLoop cats a current visited f = some r →
    checkCircularLoop cats a current visited f' = some r := by
  intro f
  induction f with
  | zero => intro f' current visited r _ hw; cases hw
  | succ n ih =>
    intro f' current visited r hle hw
    cases f' with
    | zero => omega
    | succ m =>
      unfold checkCircularLoop at hw ⊢
      by_cases hca : current = a
      · rw [if_pos hca] at hw ⊢; exact hw
      · rw [if_neg hca] at hw ⊢
        cases hfc : findCategory cats current with
        | none => simp only [hfc] at hw ⊢; exact hw
        | some parent =>
          simp only [hfc] at hw ⊢
          cases hp : parent.parentID with
          | none => simp only [hp] at hw ⊢; exact hw
          | some pid =>
            simp only [hp] at hw ⊢
            by_cases hv : pid ∈ current :: visited
            · rw [if_pos hv] at hw ⊢; exact hw
            · rw [if_neg hv] at hw ⊢
              exact ih (by omega) hw

/-- A clean pass of the repository check certifies a terminating chain. -/
theorem checkLoop_ok_terminating {cats : List Category} {a : Nat} :
    ∀ (fuel : Nat) (current : Nat) (visited : List Nat),
    checkCircularLoop cats a current visited fuel = some (.ok ()) →
    Terminating cats current := by
  intro fuel
  induction fuel with
  | zero => intro current visited h; cases h
  | succ n ih =>
    intro current visited h
    unfold checkCircularLoop at h
    by_cases hca : current = a
    · rw [if_pos hca] at h; simp at h
    · rw [if_neg hca] at h
      cases hf : findCategory cats current with
      | none => exact .nil (by simp [parentLink, hf])
      | some parent =>
        simp only [hf] at h
        cases hp : parent.parentID with
        | none => exact .nil (by simp [parentLink, hf, hp])
        | some pid =>
          simp only [hp] at h
          by_cases hv : pid ∈ current :: visited
          · rw [if_pos hv] at h; simp at h
          · rw [if_neg hv] at h
            exact .cons (by simp [parentLink, hf, hp]) (ih pid (current :: visited) h)

/-- With fuel beyond the table size, the visited-set guard forces the
repository check to finish. -/
theorem checkLoop_terminates {cats : List Category} {a : Nat} :
    ∀ (fuel : Nat) (current : Nat) (visited : List Nat),
    cats.length + 1 ≤ visited.length + fuel →
    (∀ v ∈ visited, ∃ c ∈ cats, c.id = v) →
    visited.Nodup →
    current ∉ visited →
    checkCircularLoop cats a current visited fuel ≠ none := by
  intro fuel
  induction fuel with
  | zero =>
    intro current visited hlen hids hnd hcv
    exfalso
    have hsub : visited ⊆ cats.map Category.id := by
      intro v hv
      obtain ⟨c, hc, hcid⟩ := hids v hv
      exact hcid ▸ List.mem_map_of_mem Category.id hc
    have := (List.subperm_of_subset hnd hsub).length_le
    simp at this
    omega
  | succ n ih =>
    intro current visited hlen hids hnd hcv
    unfold checkCircularLoop
    by_cases hca : current = a
    · rw [if_pos hca]; exact fun h => by cases h
    · rw [if_neg hca]
      cases hf : findCategory cats current with
      | none => exact fun h => by cases h
      | some parent =>
        cases hp : parent.parentID with
        | none => simp only [hp]; exact fun h => by cases h
        | some pid =>
          simp only [hp]
          by_cases hv : pid ∈ current :: visited
          · rw [if_pos hv]; exact fun h => by cases h
          · rw [if_neg hv]
            apply ih pid (current :: visited)
            · simp; omega
            · intro v hvv
              rcases List.mem_cons.mp hvv with rfl | hvv'
              · exact ⟨parent, List.mem_of_find?_eq_some hf, findCategory_id hf⟩
              · exact hids v hvv'
            · exact List.nodup_cons.mpr ⟨hcv, hnd⟩
            · exact hv

/-- The repository check only ever rejects with the circular-reference
error. -/
theorem checkLoop_error_shape {cats : List Category} {a : Nat} :
    ∀ (fuel : Nat) (current : Nat) (visited : List Nat) (e : Err),
    checkCircularLoop cats a current visited fuel = some (.error e) →
    e = .circularReference := by
  intro fuel
  induction fuel with
  | zero => intro current visited e h; cases h
  | succ n ih =>
    intro current visited e h
    unfold checkCircularLoop at h
    by_cases hca : current = a
    · rw [if_pos hca] at h
      injection h with h1
      injection h1 with h2
      exact h2.symm
    · rw [if_neg hca] at h
      cases hf : findCategory cats current with
      | none => simp only [hf] at h; simp at h
      | some parent =>
        simp only [hf] at h
        cases hp : parent.parentID with
        | none => simp only [hp] at h; simp at h
        | some pid =>
          simp only [hp] at h
          by_cases hv : pid ∈ current :: visited
          · rw [if_pos hv] at h
            injection h with h1
            injection h1 with h2
            exact h2.symm
          · rw [if_neg hv] at h
            exact ih pid (current :: visited) e h

/-- On a terminating chain that never reaches the moved category, the
repository check passes, provided every already-visited node lies on the
chain behind the current one. -/
theorem checkLoop_ok_of_invariant {cats : List Category} {a : Nat} :
    ∀ {current : Nat}, Terminating cats current →
    ¬ Reaches cats current a →
    ∀ (visited : List Nat), (∀ v ∈ visited, Reaches cats v current) →
    ∃ fuel, checkCircularLoop cats a current visited fuel = some (.ok ()) := by
  intro current ht
  induction ht with
  | @nil x h =>
    intro hnr visited _
    have hca : ¬(x = a) := by intro he; subst he; exact hnr (Reaches.refl x)
    refine ⟨1, ?_⟩
    unfold checkCircularLoop
    rw [if_neg hca]
    cases hf : findCategory cats x with
    | none => rfl
    | some parent =>
      have hp : parent.parentID = none := by simpa [parentLink, hf] using h
      simp only [hp]
  | @cons x y h ht' ih =>
    intro hnr visited hv
    obtain ⟨parent, hf, hp⟩ :
        ∃ parent, findCategory cats x = some parent ∧ parent.parentID = some y := by
      cases hf : findCategory cats x with
      | none => simp [parentLink, hf] at h
      | some parent => exact ⟨parent, rfl, by simpa [parentLink, hf] using h⟩
    have hynv : y ∉ x :: visited := by
      intro hy
      rcases List.mem_cons.mp hy with rfl | hy'
      · exact no_cycle (Terminating.cons h ht') (Reaches.refl y) h
      · exact no_cycle ht' (hv y hy') h
    obtain ⟨fuel, hrec⟩ := ih (fun hr => hnr (Reaches.step h hr)) (x :: visited)
      (by
        intro v hvv
        rcases List.mem_cons.mp hvv with rfl | hvv'
        · exact Reaches.step h (Reaches.refl y)
        · exact reaches_snoc (hv v hvv') h)
    have hca : ¬(x = a) := by intro he; subst he; exact hnr (Reaches.refl x)
    refine ⟨fuel + 1, ?_⟩
    unfold checkCircularLoop
    rw [if_neg hca]
    simp only [hf, hp]
    rw [if_neg hynv]
    exact hrec

/-- Links are unchanged away from the updated row. -/
theorem parentLink_updateRow_ne (cats : List Category) (c : Category) (x : Nat)
    (hx : x ≠ c.id) :
    parentLink (cats.map (fun old => if old.id = c.id then
      { old with name := c.name, parentID := c.parentID, ctype := c.ctype }
      else old)) x = parentLink cats x := by
  unfold parentLink
  rw [findCategory_updateRow]
  cases hf : findCategory cats x with
  | none => rfl
  | some r =>
    have hr : r.id = x := findCategory_id hf
    simp only [Option.map_some']
    rw [if_neg (by rw [hr]; exact hx)]

/-- The updated row's link is the new parent. -/
theorem parentLink_updateRow_eq (cats : List Category) (c : Category)
    {r : Category} (hf : findCategory cats c.id = some r) :
    parentLink (cats.map (fun old => if old.id = c.id then
      { old with name := c.name, parentID := c.parentID, ctype := c.ctype }
      else old)) c.id = c.parentID := by
  unfold parentLink
  rw [findCategory_updateRow]
  simp only [hf, Option.map_some']
  rw [if_pos (findCategory_id hf)]

/-- Chains that terminated and avoided the re-parented node still terminate
after the re-parenting. -/
theorem terminating_update_avoid {cats cats' : List Category} {a : Nat}
    (hl : ∀ x, x ≠ a → parentLink cats' x = parentLink cats x) :
    ∀ {s : Nat}, Terminating cats s → ¬ Reaches cats s a →
    Terminating cats' s := by
  intro s ht
  induction ht with
  | @nil x h =>
    intro hnr
    have hxa : x ≠ a := by intro he; subst he; exact hnr (Reaches.refl x)
    exact .nil ((hl x hxa).trans h)
  | @cons x y h ht' ih =>
    intro hnr
    have hxa : x ≠ a := by intro he; subst he; exact hnr (Reaches.refl x)
    exact .cons ((hl x hxa).trans h) (ih (fun hr => hnr (.step h hr)))

/-- Re-parenting one node onto a chain that does not reach it preserves
termination of every chain. -/
theorem terminating_update {cats cats' : List Category} {a p : Nat}
    (hl : ∀ x, x ≠ a → parentLink cats' x = parentLink cats x)
    (hla : parentLink cats' a = some p)
    (hterm : ∀ x, Terminating cats x)
    (hnr : ¬ Reaches cats p a) :
    ∀ x, Terminating cats' x := by
  have hta : Terminating cats' a :=
    .cons hla (terminating_update_avoid hl (hterm p) hnr)
  intro x
  have hx := hterm x
  induction hx with
  | @nil z h =>
    by_cases hz : z = a
    · rw [hz]; exact hta
    · exact .nil ((hl z hz).trans h)
  | @cons z y h ht' ih =>
    by_cases hz : z = a
    · rw [hz]; exact hta
    · exact .cons ((hl z hz).trans h) ih

/-- What a successful `MoveCategory` onto a new parent entails: both rows
were found, the node differs from the parent, the service walk reported no
cycle, and the result is the one-row re-parenting of the table. -/
theorem moveCategory_ok_spec {db : DB} {a p fuel : Nat} {db' : DB}
    (hok : MoveCategory db a (some p) fuel = some (.ok db')) :
    ∃ catA catP, findCategory db.categories a = some catA ∧
      findCategory db.categories p = some catP ∧
      ¬(a = p) ∧
      ancestorWalk db.categories a catP fuel = some false ∧
      db'.categories = db.categories.map (fun old => if old.id = catA.id then
        { old with name := catA.name, parentID := some p, ctype := catA.ctype }
        else old) := by
  unfold MoveCategory at hok
  cases hA : findCategory db.categories a with
  | none => simp [hA] at hok
  | some catA =>
    simp only [hA] at hok
    cases hP : findCategory db.categories p with
    | none => simp [hP] at hok
    | some catP =>
      simp only [hP] at hok
      by_cases huser : catP.userID = catA.userID
      case neg => rw [if_pos (by simpa using huser)] at hok; simp at hok
      rw [if_neg (by simpa using huser)] at hok
      unfold wouldCreateCircularReference at hok
      by_cases hap : a = p
      · rw [if_pos hap] at hok; simp at hok
      · rw [if_neg hap] at hok
        simp only [hP] at hok
        cases hw : ancestorWalk db.categories a catP fuel with
        | none => rw [hw] at hok; cases hok
        | some b =>
          rw [hw] at hok
          cases b with
          | true => simp at hok
          | false =>
            refine ⟨catA, catP, rfl, rfl, hap, hw, ?_⟩
            unfold categoryRepoUpdate at hok
            simp only [hP] at hok
            rw [if_neg (by simpa using huser)] at hok
            cases hchk : checkCategoryCircularReference db.categories
                catA.id p fuel with
            | none => rw [hchk] at hok; cases hok
            | some r =>
              rw [hchk] at hok
              cases r with
              | error e => simp at hok
              | ok u =>
                cases u
                unfold categoryUpdateRow at hok
                by_cases hany : (db.categories.any
                    (fun x => x.id == catA.id)) = true
                · rw [if_pos hany] at hok
                  simp only [Option.some.injEq, Except.ok.injEq] at hok
                  rw [← hok]
                · rw [if_neg hany] at hok
                  simp at hok

/-- A successful move on a well-formed table keeps every parent chain
terminating. -/
theorem moveCategory_ok_wellFormed {db : DB} {a p fuel : Nat} {db' : DB}
    (hwf : wellFormedB db.categories = true)
    (hok : MoveCategory db a (some p) fuel = some (.ok db')) :
    ∀ x, Terminating db'.categories x := by
  obtain ⟨catA, catP, hA, hP, hap, hw, hcats⟩ := moveCategory_ok_spec hok
  have hterm := wellFormed_of_wellFormedB hwf
  have hpa : p ≠ a := fun h => hap h.symm
  have hnr : ¬ Reaches db.categories p a :=
    walk_false_not_reaches fuel p catP hP hw hpa
  have hidA : catA.id = a := findCategory_id hA
  have hcats' : db'.categories = db.categories.map (fun old =>
      if old.id = ({catA with parentID := some p} : Category).id then
        { old with
            name := ({catA with parentID := some p} : Category).name
            parentID := ({catA with parentID := some p} : Category).parentID
            ctype := ({catA with parentID := some p} : Category).ctype }
      else old) := hcats
  have hl : ∀ x, x ≠ a →
      parentLink db'.categories x = parentLink db.categories x := by
    intro x hx
    rw [hcats']
    exact parentLink_updateRow_ne db.categories _ x (by simpa [hidA] using hx)
  have hla : parentLink db'.categories a = some p := by
    have hf2 : findCategory db.categories
        ({catA with parentID := some p} : Category).id = some catA := by
      show findCategory db.categories catA.id = some catA
      rw [hidA]; exact hA
    have h3 := parentLink_updateRow_eq db.categories
      ({catA with parentID := some p}) hf2
    rw [hcats', show a = catA.id from hidA.symm]
    exact h3
  exact terminating_update hl hla hterm hnr

/-- On a well-formed table, a move onto an existing same-owner parent that
is not the node itself and not one of its descendants goes through. -/
theorem moveCategory_success {db : DB} {a p : Nat} {catA catP : Category}
    (hA : findCategory db.categories a = some catA)
    (hP : findCategory db.categories p = some catP)
    (huser : catP.userID = catA.userID)
    (hap : ¬(a = p))
    (hterm : ∀ x, Terminating db.categories x)
    (hnr : ¬ Reaches db.categories p a) :
    ∃ fuel db', MoveCategory db a (some p) fuel = some (.ok db') := by
  obtain ⟨f1, hw1⟩ := walk_false_of_not_reaches (hterm p) hnr hP
  obtain ⟨f2, hchk⟩ := checkLoop_ok_of_invariant (hterm p) hnr [] (by simp)
  have hw : ancestorWalk db.categories a catP (max f1 f2) = some false :=
    ancestorWalk_mono (le_max_left f1 f2) hw1
  have hchk2 : checkCircularLoop db.categories a p [] (max f1 f2) =
      some (.ok ()) := checkLoop_mono (le_max_right f1 f2) hchk
  have hidA : catA.id = a := findCategory_id hA
  have hany : (db.categories.any (fun x => x.id == a)) = true := by
    rw [List.any_eq_true]
    exact ⟨catA, List.mem_of_find?_eq_some hA, by simp [hidA]⟩
  refine ⟨max f1 f2, ?_⟩
  unfold MoveCategory wouldCreateCircularReference categoryRepoUpdate
    checkCategoryCircularReference categoryUpdateRow
  simp only [hA, hP]
  rw [if_neg (by simpa using huser), if_neg hap]
  simp only [hP, hw]
  rw [if_neg (by simpa using huser)]
  rw [hidA]
  simp only [hchk2, hany, if_pos]
  exact ⟨_, rfl⟩

/-- C6: `MoveCategory` rejects a move whose new parent is the node itself
or one of its descendants — it can never succeed there, and with enough
fuel it rejects with the circular-reference error kind; on a well-formed
table a move onto an unrelated same-owner node succeeds; every successful
move leaves the parent chain of every category terminating; and the
repository check's visited-set guard rejects a non-terminating (corrupted)
parent chain instead of walking it forever. -/
theorem moveCategory_cycle_safety (db : DB) (a p : Nat) (catA catP : Category)
    (hA : findCategory db.categories a = some catA)
    (hP : findCategory db.categories p = some catP)
    (huser : catP.userID = catA.userID) :
    ((a = p ∨ Reaches db.categories p a) →
        (∀ fuel db', MoveCategory db a (some p) fuel ≠ some (.ok db')) ∧
        ∃ fuel, MoveCategory db a (some p) fuel =
          some (.error .invalidCategoryData)) ∧
    (wellFormedB db.categories = true → ¬(a = p) →
        ¬ Reaches db.categories p a →
        ∃ fuel db', MoveCategory db a (some p) fuel = some (.ok db') ∧
          ∀ x, Terminating db'.categories x) ∧
    (wellFormedB db.categories = true →
        ∀ fuel db', MoveCategory db a (some p) fuel = some (.ok db') →
        ∀ x, Terminating db'.categories x) ∧
    (∀ (cats : List Category) (c fuel : Nat), cats.length + 1 ≤ fuel →
        ¬ Terminating cats c →
        checkCategoryCircularReference cats a c fuel =
          some (.error .circularReference)) := by
  refine ⟨?_, ?_, ?_, ?_⟩
  · intro hcyc
    constructor
    · intro fuel db' hok
      obtain ⟨catA', catP', hA', hP', hap, hw, _⟩ := moveCategory_ok_spec hok
      rw [hP] at hP'
      injection hP' with he2
      rcases hcyc with hap' | hr
      · exact hap hap'
      · exact walk_false_not_reaches fuel p catP' (he2 ▸ hP) hw
          (fun h => hap h.symm) hr
    · by_cases hap : a = p
      · refine ⟨0, ?_⟩
        unfold MoveCategory wouldCreateCircularReference
        simp only [hA, hP]
        rw [if_neg (by simpa using huser), if_pos hap]
      · rcases hcyc with hap' | hr
        · exact absurd hap' hap
        · obtain ⟨f, hwt⟩ := walk_true_of_reaches hr (fun h => hap h.symm) hP
          refine ⟨f, ?_⟩
          unfold MoveCategory wouldCreateCircularReference
          simp only [hA, hP]
          rw [if_neg (by simpa using huser), if_neg hap]
          simp only [hP, hwt]
  · intro hwf hap hnr
    obtain ⟨fuel, db', hok⟩ := moveCategory_success hA hP huser hap
      (wellFormed_of_wellFormedB hwf) hnr
    exact ⟨fuel, db', hok, moveCategory_ok_wellFormed hwf hok⟩
  · intro hwf fuel db' hok
    exact moveCategory_ok_wellFormed hwf hok
  · intro cats c fuel hfuel hnt
    have hne : checkCircularLoop cats a c [] fuel ≠ none := by
      apply checkLoop_terminates fuel c []
      · simpa using hfuel
      · simp
      · simp
      · simp
    show checkCircularLoop cats a c [] fuel = some (.error .circularReference)
    cases hres : checkCircularLoop cats a c [] fuel with
    | none => exact absurd hres hne
    | some r =>
      cases r with
      | ok u =>
        cases u
        exact absurd (checkLoop_ok_terminating fuel c [] hres) hnt
      | error e =>
        have he := checkLoop_error_shape fuel c [] e hres
        rw [he]

/-- Root of the A→B→C chain. -/
def catNodeA : Category :=
  { id := 1, name := "A", parentID := none, userID := 7, ctype := "expense" }

/-- B, child of A. -/
def catNodeB : Category :=
  { id := 2, name := "B", parentID := some 1, userID := 7, ctype := "expense" }

/-- C, child of B. -/
def catNodeC : Category :=
  { id := 3, name := "C", parentID := some 2, userID := 7, ctype := "expense" }

/-- An unrelated root node. -/
def catNodeU : Category :=
  { id := 4, name := "U", parentID := none, userID := 7, ctype := "expense" }

/-- The chain database of the move scenario. -/
def dbChain : DB :=
  { users := [7], cards := [], transactions := [],
    categories := [catNodeA, catNodeB, catNodeC, catNodeU],
    integrations := [] }

/-- A corrupted two-node table whose parent links form the cycle 5 ↔ 6. -/
def catsCorrupt : List Category :=
  [ { id := 5, name := "D", parentID := some 6, userID := 7, ctype := "expense" },
    { id := 6, name := "E", parentID := some 5, userID := 7, ctype := "expense" } ]

/-- Witness for C6: `Move(A, newParent := C)` on the chain A→B→C is rejected
as circular and can never succeed; `Move(A, newParent := U)` succeeds and
keeps every chain terminating; the repository guard rejects the corrupted
5 ↔ 6 cycle. -/
theorem moveCategory_cycle_safety_witness :
    ((∀ fuel db', MoveCategory dbChain 1 (some 3) fuel ≠ some (.ok db')) ∧
      ∃ fuel, MoveCategory dbChain 1 (some 3) fuel =
        some (.error .invalidCategoryData)) ∧
    (∃ fuel db', MoveCategory dbChain 1 (some 4) fuel = some (.ok db') ∧
      ∀ x, Terminating db'.categories x) ∧
    checkCategoryCircularReference catsCorrupt 1 5 3 =
      some (.error .circularReference) :=
  ⟨(moveCategory_cycle_safety dbChain 1 3 catNodeA catNodeC
      (by decide) (by decide) (by decide)).1
    (Or.inr (Reaches.step rfl (Reaches.step rfl (Reaches.refl 1)))),
   (moveCategory_cycle_safety dbChain 1 4 catNodeA catNodeU
      (by decide) (by decide) (by decide)).2.1
    (by decide) (by decide)
    (by
      intro h
      cases h with
      | step h1 h2 =>
        rw [show parentLink dbChain.categories 4 = none from rfl] at h1
        cases h1),
   (moveCategory_cycle_safety dbChain 1 3 catNodeA catNodeC
      (by decide) (by decide) (by decide)).2.2.2 catsCorrupt 5 3
    (by decide)
    (fun h => no_cycle h (Reaches.step rfl (Reaches.refl 6)) rfl)⟩
